import Mathlib

/-!
Verification development for the kisdhi-green-deploy backend
(`src/backend/app`): a shallow embedding in Lean 4 of the flow-generation
pipeline — the HTTP→HTTPS sanitizer, the AI-response parser/validator, the
retry loop of the generation orchestrator, the flow persistence reconciler,
and the per-project undo log — together with theorems settling the spec's
claims about it.

Conventions of the embedding:
* Python `str` is `String` / `List Char` (Python indexes and measures strings
  by code points, as `List Char` does).
* Python machine-free ints are `Int` (and `Nat` for ids/counters).
* Fallible code returns `Except`; an exception value carries the data the
  Python exception class stores.
* Database sessions are modelled by explicit state passing: an endpoint maps
  the committed state to the committed state after the request; a rollback is
  modelled by returning the pre-request state.
-/

set_option autoImplicit false

namespace KisdhiGreen

/-! ## HTTP→HTTPS sanitizer — `src/backend/app/utils/sanitizer.py`

`sanitize_http_to_https` is `re.sub(r'http://([\w\-\.]+(?:/[\w\-\./?%&=]*)?)',
r'https://\1', text, flags=re.IGNORECASE)`.  The regex is deterministic
(greedy classes followed only by an optional group), so `re.sub`'s
leftmost-longest scan is embedded directly as a character scanner. -/

/-- The character class `[\w\-\.]` of the domain part.  Python's `\w` also
admits non-ASCII word characters; the theorems below do not depend on the
exact extent of the class, only on the literal `http://` scheme match. -/
def isDomainChar (c : Char) : Bool :=
  c.isAlphanum || c = '_' || c = '-' || c = '.'

/-- The character class `[\w\-\./?%&=]` of the optional path part. -/
def isPathChar (c : Char) : Bool :=
  c.isAlphanum || c = '_' || c = '-' || c = '.' || c = '/' || c = '?' || c = '%' || c = '&' || c = '='

/-- Case-insensitive match of the literal `http://` (the regex runs with
`re.IGNORECASE`); returns the remainder after the scheme on success. -/
def matchHttpScheme : List Char → Option (List Char)
  | c0 :: c1 :: c2 :: c3 :: c4 :: c5 :: c6 :: rest =>
    if c0.toLower = 'h' && c1.toLower = 't' && c2.toLower = 't' && c3.toLower = 'p'
        && c4 = ':' && c5 = '/' && c6 = '/' then
      some rest
    else
      none
  | _ => none

/-- One left-to-right pass of `re.sub`: at each position try to match
`http://` + a nonempty greedy domain run + an optional `/`-led greedy path
run; on a match emit `https://` plus the captured group and continue after
the match, otherwise emit the character and move on.  `fuel` bounds the
recursion; `fuel = length of the input` always suffices because every step
consumes at least one character. -/
def sanitizeChars : Nat → List Char → List Char
  | 0, cs => cs
  | _ + 1, [] => []
  | fuel + 1, c :: rest =>
    match matchHttpScheme (c :: rest) with
    | none => c :: sanitizeChars fuel rest
    | some afterScheme =>
      let dom := afterScheme.takeWhile isDomainChar
      if dom = [] then
        c :: sanitizeChars fuel rest
      else
        let afterDom := afterScheme.dropWhile isDomainChar
        match afterDom with
        | '/' :: pr =>
          "https://".toList ++ dom ++ '/' :: pr.takeWhile isPathChar
            ++ sanitizeChars fuel (pr.dropWhile isPathChar)
        | _ =>
          "https://".toList ++ dom ++ sanitizeChars fuel afterDom

/-- `sanitize_http_to_https` on a present string (the Python function also
maps `None` to `None`; callers in the claims always pass a string). -/
def sanitize_http_to_https (s : String) : String :=
  ⟨sanitizeChars s.data.length s.data⟩

/-- Whether the text contains an occurrence of `http://`, case-insensitively
(the condition of the second half of claim P4). -/
def containsHttpScheme : List Char → Bool
  | [] => false
  | c :: rest => (matchHttpScheme (c :: rest)).isSome || containsHttpScheme rest

/-! ## Parsed JSON values

`AIService._parse_ai_response` (src/backend/app/services/ai.py) first strips a
Markdown fence and runs `json.loads`; everything after that operates on the
decoded Python value.  `PyVal` is that value domain (JSON floats do not occur
in the claims and are omitted; a non-`pint` `order` is rejected by validation
either way).  The embedding takes the decoded value as input — a decode
failure is the `json_format` ValidationError, raised before any of the
behavior the claims are about. -/

inductive PyVal where
  | pstr (s : String)
  | pint (n : Int)
  | pbool (b : Bool)
  | plist (xs : List PyVal)
  | pdict (kvs : List (String × PyVal))
  | pnone

mutual

/-- Python `==` on decoded JSON values (structural equality). -/
def pyBeq : PyVal → PyVal → Bool
  | .pstr a, .pstr b => a == b
  | .pint a, .pint b => a == b
  | .pbool a, .pbool b => a == b
  | .pnone, .pnone => true
  | .plist as, .plist bs => pyBeqList as bs
  | .pdict as, .pdict bs => pyBeqDict as bs
  | _, _ => false

def pyBeqList : List PyVal → List PyVal → Bool
  | [], [] => true
  | a :: as, b :: bs => pyBeq a b && pyBeqList as bs
  | _, _ => false

def pyBeqDict : List (String × PyVal) → List (String × PyVal) → Bool
  | [], [] => true
  | (k, v) :: as, (k2, v2) :: bs => k == k2 && pyBeq v v2 && pyBeqDict as bs
  | _, _ => false

end

/-- Key lookup in a decoded JSON object (`json.loads` objects have unique
keys, later duplicates overwriting earlier ones at decode time). -/
def lookupKey (kvs : List (String × PyVal)) (k : String) : Option PyVal :=
  (kvs.find? (fun kv => kv.1 == k)).map (fun kv => kv.2)

/-- Key lookup on a value (`k in v` / `v[k]` for dicts; `none` otherwise). -/
def getKey (v : PyVal) (k : String) : Option PyVal :=
  match v with
  | PyVal.pdict kvs => lookupKey kvs k
  | _ => none

/-! ## `ValidationError` — src/backend/app/exceptions.py

`ValidationError(message, field, details)` derives `BusinessFlowException`,
which derives `Exception` (NOT `ValueError`); `field` is the error-code tag
the callers pass (`json_format`, `missing_field`, `node_ordering`,
`duplicate_orders`, ...).  The free-form `details` dict is observability
payload and is omitted; in `message` strings the Python quote characters are
omitted (no claim depends on message punctuation). -/

structure VErr where
  message : String
  field : Option String
deriving DecidableEq, Repr

/-! ## Response Validator — `AIService._parse_ai_response`

The per-check structure and check order mirror ai.py lines 300–425. -/

/-- Actor items: `not isinstance(actor, dict) or "name" not in actor or
"role" not in actor` raises `actor_{i}_format`. -/
def checkActors : Nat → List PyVal → Except VErr Unit
  | _, [] => Except.ok ()
  | i, a :: rest =>
    match a with
    | PyVal.pdict kvs =>
      if (lookupKey kvs "name").isSome && (lookupKey kvs "role").isSome then
        checkActors (i + 1) rest
      else
        Except.error ⟨s!"Actor {i} must have name and role fields", some s!"actor_{i}_format"⟩
    | _ => Except.error ⟨s!"Actor {i} must have name and role fields", some s!"actor_{i}_format"⟩

/-- Step items: each must be a dict with `name` and `description`. -/
def checkSteps : Nat → List PyVal → Except VErr Unit
  | _, [] => Except.ok ()
  | i, s :: rest =>
    match s with
    | PyVal.pdict kvs =>
      if (lookupKey kvs "name").isSome && (lookupKey kvs "description").isSome then
        checkSteps (i + 1) rest
      else
        Except.error ⟨s!"Step {i} must have name and description fields", some s!"step_{i}_format"⟩
    | _ => Except.error ⟨s!"Step {i} must have name and description fields", some s!"step_{i}_format"⟩

/-- Python's `not log.strip()` / `not node["text"].strip()` test: true iff the
string is all whitespace (Python strips Unicode whitespace; the difference to
`Char.isWhitespace` does not affect the claims). -/
def isBlankStr (s : String) : Bool :=
  s.data.all Char.isWhitespace

/-- The per-node checks of ai.py lines 356–399, in source order: dict shape
(`node_{i}_type`), first missing required field (`node_{i}_fields`), nonempty
string text (`node_{i}_text`), non-negative integer order (`node_{i}_order`),
actor membership (`node_{i}_actor`), step membership (`node_{i}_step`). -/
def checkNode (i : Nat) (actorNames stepNames : List PyVal) (node : PyVal) : Except VErr Unit :=
  match node with
  | PyVal.pdict kvs =>
    if (lookupKey kvs "text").isNone then
      Except.error ⟨s!"Flow node {i} missing required field text", some s!"node_{i}_fields"⟩
    else if (lookupKey kvs "order").isNone then
      Except.error ⟨s!"Flow node {i} missing required field order", some s!"node_{i}_fields"⟩
    else if (lookupKey kvs "actor").isNone then
      Except.error ⟨s!"Flow node {i} missing required field actor", some s!"node_{i}_fields"⟩
    else if (lookupKey kvs "step").isNone then
      Except.error ⟨s!"Flow node {i} missing required field step", some s!"node_{i}_fields"⟩
    else
      match lookupKey kvs "text" with
      | some (PyVal.pstr t) =>
        if isBlankStr t then
          Except.error ⟨s!"Flow node {i} text must be a non-empty string", some s!"node_{i}_text"⟩
        else
          match lookupKey kvs "order" with
          | some (PyVal.pint n) =>
            if n < 0 then
              Except.error ⟨s!"Flow node {i} order must be a non-negative integer", some s!"node_{i}_order"⟩
            else if !(actorNames.any (fun a => pyBeq a ((lookupKey kvs "actor").getD PyVal.pnone))) then
              Except.error ⟨s!"Flow node {i} actor must be one of the defined actors", some s!"node_{i}_actor"⟩
            else if !(stepNames.any (fun s => pyBeq s ((lookupKey kvs "step").getD PyVal.pnone))) then
              Except.error ⟨s!"Flow node {i} step must be one of the defined steps", some s!"node_{i}_step"⟩
            else
              Except.ok ()
          | _ =>
            Except.error ⟨s!"Flow node {i} order must be a non-negative integer", some s!"node_{i}_order"⟩
      | _ =>
        Except.error ⟨s!"Flow node {i} text must be a non-empty string", some s!"node_{i}_text"⟩
  | _ => Except.error ⟨s!"Flow node {i} must be a dictionary", some s!"node_{i}_type"⟩

/-- Run `checkNode` over the list with its enumeration index. -/
def checkNodes (i : Nat) (actorNames stepNames : List PyVal) : List PyVal → Except VErr Unit
  | [] => Except.ok ()
  | n :: rest => do
    checkNode i actorNames stepNames n
    checkNodes (i + 1) actorNames stepNames rest

/-- The structured result `_parse_ai_response` returns: the `actors`,
`steps`, `flow_nodes` and `edges` values of the decoded response. -/
structure ParsedResponse where
  actors : List PyVal
  steps : List PyVal
  flow_nodes : List PyVal
  edges : List PyVal

/-- The edges section (ai.py lines 401–419): `parsed_data.get("edges", [])`,
a non-list value replaced by `[]` with a warning; the subsequent per-edge
checks only log warnings (`continue`) and never modify the list. -/
def edgesSection (kvs : List (String × PyVal)) : List PyVal :=
  match lookupKey kvs "edges" with
  | some (PyVal.plist xs) => xs
  | some _ => []
  | none => []

/-- Well-formedness of one edge as the per-edge warning checks define it: a
dict with integer `from_order` and `to_order`. -/
def isWellFormedEdge (e : PyVal) : Bool :=
  match e with
  | PyVal.pdict kvs =>
    match lookupKey kvs "from_order", lookupKey kvs "to_order" with
    | some (PyVal.pint _), some (PyVal.pint _) => true
    | _, _ => false
  | _ => false

/-- `AIService._parse_ai_response` from the decoded value on (ai.py 300–425):
required top-level keys, actors 3–5 each with name/role, steps 3–10 each with
name/description, per-node checks against the declared actor/step names, then
the tolerant edges section.  A non-dict top level fails the first
`field not in parsed_data` test and is reported as `missing_field`. -/
def parse_ai_response (parsed : PyVal) : Except VErr ParsedResponse :=
  match parsed with
  | PyVal.pdict kvs =>
    if (lookupKey kvs "actors").isNone then
      Except.error ⟨"AI response missing actors field", some "missing_field"⟩
    else if (lookupKey kvs "steps").isNone then
      Except.error ⟨"AI response missing steps field", some "missing_field"⟩
    else if (lookupKey kvs "flow_nodes").isNone then
      Except.error ⟨"AI response missing flow_nodes field", some "missing_field"⟩
    else
      match lookupKey kvs "actors" with
      | some (PyVal.plist actors) =>
        if actors.length < 3 ∨ actors.length > 5 then
          Except.error ⟨"Actors must be a list with 3-5 items", some "actors_count"⟩
        else
          match checkActors 0 actors with
          | Except.error e => Except.error e
          | Except.ok _ =>
            match lookupKey kvs "steps" with
            | some (PyVal.plist steps) =>
              if steps.length < 3 ∨ steps.length > 10 then
                Except.error ⟨"Steps must be a list with 3-10 items", some "steps_count"⟩
              else
                match checkSteps 0 steps with
                | Except.error e => Except.error e
                | Except.ok _ =>
                  match lookupKey kvs "flow_nodes" with
                  | some (PyVal.plist flow_nodes) =>
                    match checkNodes 0
                        (actors.map (fun a => (getKey a "name").getD PyVal.pnone))
                        (steps.map (fun s => (getKey s "name").getD PyVal.pnone))
                        flow_nodes with
                    | Except.error e => Except.error e
                    | Except.ok _ =>
                      Except.ok ⟨actors, steps, flow_nodes, edgesSection kvs⟩
                  | _ => Except.error ⟨"flow_nodes must be a list", some "invalid_type"⟩
            | _ => Except.error ⟨"Steps must be a list with 3-10 items", some "steps_count"⟩
      | _ => Except.error ⟨"Actors must be a list with 3-5 items", some "actors_count"⟩
  | _ => Except.error ⟨"AI response missing actors field", some "missing_field"⟩

/-! ## Structural validation — `AIService._validate_flow_structure`

ai.py lines 437–506: count bounds, then the sequential-ordering check, then
the duplicate-orders check, then the non-blocking prohibited-content scan
(warnings only, never an error). -/

/-- `node["order"]` of a node that passed `_parse_ai_response` (always a
`pint` there; defaults to 0 for totality). -/
def getOrderInt (node : PyVal) : Int :=
  match getKey node "order" with
  | some (PyVal.pint n) => n
  | _ => 0

/-- `sorted(orders)` for the extracted integer order values (a stable sort,
embedded as insertion sort). -/
def sortedOrders (orders : List Int) : List Int :=
  orders.insertionSort (fun a b => a ≤ b)

def validate_flow_structure (fd : ParsedResponse) : Except VErr Unit :=
  if fd.actors.length < 3 ∨ fd.actors.length > 5 then
    Except.error ⟨"Flow must contain 3-5 actors", some "actor_count"⟩
  else if fd.steps.length < 3 ∨ fd.steps.length > 10 then
    Except.error ⟨"Flow must contain 3-10 steps", some "step_count"⟩
  else if fd.flow_nodes.length < 3 ∨ fd.flow_nodes.length > 30 then
    Except.error ⟨"Flow must contain 3-30 nodes", some "node_count"⟩
  else
    let orders := fd.flow_nodes.map getOrderInt
    let expected_orders := (List.range fd.flow_nodes.length).map Int.ofNat
    if sortedOrders orders ≠ expected_orders then
      Except.error ⟨"Flow nodes must have sequential ordering starting from 0", some "node_ordering"⟩
    else if orders.dedup.length ≠ orders.length then
      Except.error ⟨"Flow nodes have duplicate order values", some "duplicate_orders"⟩
    else
      Except.ok ()

/-! ## Flow Generation Orchestrator — `AIService.generate_business_flow`

ai.py lines 84–186.  The external model call is abstracted by an oracle
`outcome : Nat → AttemptResult` giving, per zero-based attempt index, how the
attempt body ends — mirroring the except-clause structure of the loop.
`AIServiceError(message, ai_error_type)` is `AIErr`.  The per-attempt
escalating timeout `min(30 * 2**attempt, 90)` (floats in the source) is kept
in whole seconds.  `asyncio.sleep` durations are collected in order. -/

structure AIErr where
  message : String
  aiErrorType : String
deriving DecidableEq, Repr

/-- How one attempt of the generation loop ends: success (a response that
passed `_parse_ai_response` + `_validate_flow_structure`), or the exception
the attempt body raises — `asyncio.TimeoutError`, openai `RateLimitError`,
openai `APIConnectionError`, the app's `ValidationError` (from
parse/validate), the app's `AIServiceError` (e.g. `empty_response`), or any
other exception. -/
inductive AttemptResult where
  | success (flow : ParsedResponse)
  | timeoutErr
  | rateLimitErr (msg : String)
  | connectionErr (msg : String)
  | validationErr (e : VErr)
  | serviceErr (e : AIErr)
  | otherErr (msg : String)

/-- The error `generate_business_flow` raises: a `ValidationError` or an
`AIServiceError` (both propagate unchanged through the
`handle_ai_service_errors` decorator, whose except-clauses re-raise
`BusinessFlowException` subclasses as-is). -/
inductive GenError where
  | validation (e : VErr)
  | service (e : AIErr)

/-- `min(self.base_timeout * (2 ** attempt), self.max_timeout)` in seconds. -/
def attemptTimeout (attempt : Nat) : Nat :=
  min (30 * 2 ^ attempt) 90

/-- The `AIServiceError` recorded in `last_error` for a retryable failure of
the given attempt (ai.py 145–182). -/
def recordedErrorOf (attempt : Nat) : AttemptResult → AIErr
  | AttemptResult.timeoutErr =>
    let t := toString (attemptTimeout attempt)
    let a := toString (attempt + 1)
    ⟨s!"AI request timed out after {t} seconds (attempt {a})", "timeout"⟩
  | AttemptResult.rateLimitErr m => ⟨s!"AI service rate limit exceeded: {m}", "rate_limit"⟩
  | AttemptResult.connectionErr m => ⟨s!"AI service connection error: {m}", "connection"⟩
  | AttemptResult.otherErr m => ⟨s!"Unexpected error during AI generation: {m}", "unexpected"⟩
  | _ => ⟨"", ""⟩

/-- The retry loop `for attempt in range(self.max_retries)` (ai.py 120–186).
`remaining` counts the attempts left (`maxRetries` at entry), `i` is the
current attempt index, `last` is `last_error`.  Returns the outcome, the
number of attempts made, and the `asyncio.sleep` durations in seconds.
Timeout: record, no sleep.  Rate limit: record, sleep `2 ** attempt` if not
the last attempt.  Connection: record, sleep `attempt + 1` if not the last
attempt.  ValidationError / AIServiceError: re-raise, no retry.  Any other
exception: record, no sleep.  Exhaustion: `raise last_error or
AIServiceError("AI flow generation failed after all retry attempts",
"retry_exhausted")`. -/
def attemptLoop (outcome : Nat → AttemptResult) (maxRetries : Nat) :
    Nat → Nat → Option AIErr → Except GenError ParsedResponse × Nat × List Nat
  | 0, i, last =>
    (Except.error (GenError.service (last.getD
      ⟨"AI flow generation failed after all retry attempts", "retry_exhausted"⟩)), i, [])
  | remaining + 1, i, _last =>
    match outcome i with
    | AttemptResult.success f => (Except.ok f, i + 1, [])
    | AttemptResult.validationErr e => (Except.error (GenError.validation e), i + 1, [])
    | AttemptResult.serviceErr e => (Except.error (GenError.service e), i + 1, [])
    | AttemptResult.timeoutErr =>
      let e := recordedErrorOf i AttemptResult.timeoutErr
      let rest := attemptLoop outcome maxRetries remaining (i + 1) (some e)
      (rest.1, rest.2.1, rest.2.2)
    | AttemptResult.rateLimitErr m =>
      let e := recordedErrorOf i (AttemptResult.rateLimitErr m)
      let rest := attemptLoop outcome maxRetries remaining (i + 1) (some e)
      (rest.1, rest.2.1, (if i < maxRetries - 1 then [2 ^ i] else []) ++ rest.2.2)
    | AttemptResult.connectionErr m =>
      let e := recordedErrorOf i (AttemptResult.connectionErr m)
      let rest := attemptLoop outcome maxRetries remaining (i + 1) (some e)
      (rest.1, rest.2.1, (if i < maxRetries - 1 then [1 * (i + 1)] else []) ++ rest.2.2)
    | AttemptResult.otherErr m =>
      let e := recordedErrorOf i (AttemptResult.otherErr m)
      let rest := attemptLoop outcome maxRetries remaining (i + 1) (some e)
      (rest.1, rest.2.1, rest.2.2)

/-- `self.max_retries` (set in `AIService.__init__`). -/
def max_retries : Nat := 3

/-- One run of `generate_business_flow`: the prompt content actually
embedded and the loop results. -/
structure GenRun where
  promptContent : String
  result : Except GenError ParsedResponse
  attemptsMade : Nat
  sleeps : List Nat

/-- `AIService.generate_business_flow(hearing_logs)` (ai.py 84–186): input
validation (initialized service, non-empty log list, each log a non-blank
string), concatenation with the `"\n\n"` separator, the 10000-character
truncation policy with the `"..."` marker, then the retry loop.  `Except.error`
here is the pre-loop `ValidationError`. -/
def generate_business_flow (initialized : Bool) (hearing_logs : List String)
    (outcome : Nat → AttemptResult) : Except VErr GenRun :=
  if !initialized then
    Except.error ⟨"AI Service not initialized", none⟩
  else if hearing_logs.isEmpty then
    Except.error ⟨"No hearing logs provided", none⟩
  else if !(hearing_logs.all (fun log => !(isBlankStr log))) then
    Except.error ⟨"All hearing logs must be non-empty strings", none⟩
  else
    let combined_content := String.intercalate "\n\n" hearing_logs
    let content :=
      if combined_content.data.length > 10000 then
        String.mk (combined_content.data.take 10000) ++ "..."
      else
        combined_content
    let r := attemptLoop outcome max_retries max_retries 0 none
    Except.ok ⟨content, r.1, r.2.1, r.2.2⟩

/-- Attempts made, read off a `generate_business_flow` run (0 when the input
validation failed before the loop). -/
def runAttemptsOf (r : Except VErr GenRun) : Nat :=
  match r with
  | Except.ok run => run.attemptsMade
  | Except.error _ => 0

/-- Sleep durations of a run. -/
def runSleepsOf (r : Except VErr GenRun) : List Nat :=
  match r with
  | Except.ok run => run.sleeps
  | Except.error _ => []

/-- Loop result of a run. -/
def runResultOf (r : Except VErr GenRun) : Option (Except GenError ParsedResponse) :=
  match r with
  | Except.ok run => some run.result
  | Except.error _ => none

/-- Prompt content of a run. -/
def runPromptOf (r : Except VErr GenRun) : Option String :=
  match r with
  | Except.ok run => some run.promptContent
  | Except.error _ => none

/-- Whether the run surfaced an `AIServiceError`. -/
def runFailedWithService (r : Except VErr GenRun) : Bool :=
  match r with
  | Except.ok run =>
    match run.result with
    | Except.error (GenError.service _) => true
    | _ => false
  | Except.error _ => false

/-- The retryable fault classes claim P7 quantifies over: timeout,
rate limit, connection. -/
def RetryableOutcome (r : AttemptResult) : Prop :=
  r = AttemptResult.timeoutErr
    ∨ (∃ m, r = AttemptResult.rateLimitErr m)
    ∨ (∃ m, r = AttemptResult.connectionErr m)

/-- The delay the claim asserts after a given attempt outcome: `2 ^ attempt`
seconds after a rate limit, `attempt + 1` seconds after a connection error,
none after a timeout. -/
def claimedDelay (attempt : Nat) : AttemptResult → List Nat
  | AttemptResult.rateLimitErr _ => [2 ^ attempt]
  | AttemptResult.connectionErr _ => [attempt + 1]
  | _ => []

/-! ## Exception dispatch of `POST /projects/{id}/flow/generate`

flow.py lines 148–166: the route body wraps the whole generation +
persistence in `try: ... except ValueError → 400, except RuntimeError → 500,
except Exception → rollback + 500`.  The Python class hierarchy
(exceptions.py) is `ValidationError < BusinessFlowException < Exception` and
`AIServiceError < BusinessFlowException < Exception`; neither derives
`ValueError` or `RuntimeError`.  `ServiceException` is the type of the
exception reaching the route's except-chain. -/

inductive ServiceException where
  | validationExc (e : VErr)
  | aiServiceExc (e : AIErr)
  | valueErrorExc (msg : String)
  | runtimeErrorExc (msg : String)
  | otherExc (msg : String)

/-- `isinstance(exc, ValueError)`: only a genuine `ValueError` — the app's
`ValidationError` derives `BusinessFlowException(Exception)`, not
`ValueError` (exceptions.py lines 9 and 24). -/
def isValueErrorInstance : ServiceException → Bool
  | ServiceException.valueErrorExc _ => true
  | _ => false

/-- `isinstance(exc, RuntimeError)`. -/
def isRuntimeErrorInstance : ServiceException → Bool
  | ServiceException.runtimeErrorExc _ => true
  | _ => false

/-- The HTTP status `generate_flow`'s except-chain produces for an exception
raised inside its try block (flow.py 148–166): `except ValueError` → 400,
`except RuntimeError` → 500, `except Exception` → 500.  Because the chain
catches the exception inside the route, the app-level
`BusinessFlowException` handler in main.py (which maps `VALIDATION_ERROR`
to 400) never sees it. -/
def generate_flow_error_status (exc : ServiceException) : Nat :=
  if isValueErrorInstance exc then 400
  else if isRuntimeErrorInstance exc then 500
  else 500

/-! ## Data model rows and the persistence reconciler — flow.py 87–146

The committed database visible to reads (`GET /projects/{id}/flow`,
`/flow/complete`).  `position_x`/`position_y` (never set by the generation
path and irrelevant to the claims) are omitted from `NodeRow`. -/

structure NodeRow where
  id : Nat
  project_id : Nat
  text : String
  order : Int
  actor : Option String
  step : Option String
deriving DecidableEq, Repr

structure EdgeRow where
  id : Nat
  project_id : Nat
  from_node_order : Int
  to_node_order : Int
  condition : Option String
deriving DecidableEq, Repr

structure DB where
  projects : List Nat
  nodes : List NodeRow
  edges : List EdgeRow
  nextNodeId : Nat
  nextEdgeId : Nat
deriving DecidableEq, Repr

/-- One node of the validated `flow_data["flow_nodes"]`, as the reconciler
consumes it (`node_data["text"]`, `node_data["order"]`,
`node_data.get("actor")`, `node_data.get("step")`). -/
structure GenNodeData where
  text : String
  order : Int
  actor : Option String
  step : Option String
deriving DecidableEq, Repr

/-- One edge of `flow_data["edges"]` (`edge_data["from_order"]`,
`edge_data["to_order"]`, `edge_data.get("condition")`). -/
structure GenEdgeData where
  from_order : Int
  to_order : Int
  condition : Option String
deriving DecidableEq, Repr

/-- Insert the new flow nodes in order, assigning consecutive generated
ids starting at `nid`. -/
def insertGenNodes (pid : Nat) : Nat → List GenNodeData → List NodeRow
  | _, [] => []
  | nid, d :: rest => ⟨nid, pid, d.text, d.order, d.actor, d.step⟩ :: insertGenNodes pid (nid + 1) rest

/-- Insert the new flow edges, assigning consecutive generated ids. -/
def insertGenEdges (pid : Nat) : Nat → List GenEdgeData → List EdgeRow
  | _, [] => []
  | eid, d :: rest => ⟨eid, pid, d.from_order, d.to_order, d.condition⟩ :: insertGenEdges pid (eid + 1) rest

/-- The persistence phase of `generate_flow` (flow.py 91–146) under a fault
model: the session deletes the project's edges, then its nodes, inserts the
new node set and COMMITS (line 111, "Commit the transaction to get node
IDs"); only then, `if "edges" in flow_data and flow_data["edges"]`, it
inserts the new edges and commits again.  `edgePhaseFails` injects a failure
into that second phase: the route's `except Exception` handler calls
`db.rollback()` — which can discard only the uncommitted edge inserts, not
the already-committed node replacement — and answers 500.  Returns the HTTP
status and the committed database subsequent reads see. -/
def generate_flow_reconcile (db : DB) (pid : Nat) (nodesData : List GenNodeData)
    (edgesData : List GenEdgeData) (edgePhaseFails : Bool) : Nat × DB :=
  let afterDeleteEdges := db.edges.filter (fun e => e.project_id != pid)
  let afterDeleteNodes := db.nodes.filter (fun n => n.project_id != pid)
  let newNodes := insertGenNodes pid db.nextNodeId nodesData
  let committed1 : DB :=
    ⟨db.projects, afterDeleteNodes ++ newNodes, afterDeleteEdges,
      db.nextNodeId + nodesData.length, db.nextEdgeId⟩
  if !edgesData.isEmpty then
    if edgePhaseFails then
      (500, committed1)
    else
      let newEdges := insertGenEdges pid db.nextEdgeId edgesData
      (200, { committed1 with
                edges := committed1.edges ++ newEdges,
                nextEdgeId := db.nextEdgeId + edgesData.length })
  else
    (200, committed1)

/-- The project's nodes as a read returns them conceptually (content view:
text and order), for comparing persisted flow states. -/
def projNodeView (db : DB) (pid : Nat) : List (String × Int) :=
  (db.nodes.filter (fun n => n.project_id == pid)).map (fun n => (n.text, n.order))

/-- The project's edges (content view: from/to order pairs). -/
def projEdgeView (db : DB) (pid : Nat) : List (Int × Int) :=
  (db.edges.filter (fun e => e.project_id == pid)).map (fun e => (e.from_node_order, e.to_node_order))

/-- The project's node rows. -/
def projNodes (db : DB) (pid : Nat) : List NodeRow :=
  db.nodes.filter (fun n => n.project_id == pid)

/-- The project's edge rows. -/
def projEdges (db : DB) (pid : Nat) : List EdgeRow :=
  db.edges.filter (fun e => e.project_id == pid)

/-! ## Undo Log and the mutating flow endpoints — flow.py 23–39 and 252–706

`undo_history: Dict[int, Dict[str, Any]]` is the process-local single-slot
per-project undo map, embedded as an association list with dict semantics
(`_record_undo_operation` overwrites, `_clear_undo_history` deletes).  The
stringly-typed `{"operation": ..., "data": {...}}` entries become the
`UndoEntry` variants with exactly the recorded fields. -/

inductive UndoEntry where
  | createNode (node_id : Nat)
  | deleteNode (node_id : Nat) (text : String) (order : Int) (project_id : Nat)
  | updateNode (node_id : Nat) (old_text : String)
  | reorderNodes (old_orders : List (Nat × Int))
deriving DecidableEq, Repr

/-- `undo_history[project_id] = {...}` — overwrite the project's slot. -/
def recordUndo (h : List (Nat × UndoEntry)) (pid : Nat) (e : UndoEntry) : List (Nat × UndoEntry) :=
  (pid, e) :: h.filter (fun q => q.1 != pid)

/-- `del undo_history[project_id]` (guarded by membership in the source). -/
def clearUndo (h : List (Nat × UndoEntry)) (pid : Nat) : List (Nat × UndoEntry) :=
  h.filter (fun q => q.1 != pid)

/-- `project_id in undo_history` / `undo_history[project_id]`. -/
def lookupUndo (h : List (Nat × UndoEntry)) (pid : Nat) : Option UndoEntry :=
  (h.find? (fun q => q.1 == pid)).map (fun q => q.2)

/-- Application state an endpoint sees: the committed database plus the
process-local undo map. -/
structure AppState where
  db : DB
  undo_history : List (Nat × UndoEntry)
deriving DecidableEq, Repr

/-- `db.query(FlowNode).filter(FlowNode.id == node_id).first()`. -/
def findNode (nodes : List NodeRow) (nid : Nat) : Option NodeRow :=
  nodes.find? (fun n => n.id == nid)

/-- `order_by(FlowNode.order)` on a node list (stable, like SQL ORDER BY on
insertion-ordered rows). -/
def sortNodesByOrder (l : List NodeRow) : List NodeRow :=
  l.insertionSort (fun a b => a.order ≤ b.order)

/-- `PUT /flow/nodes/{node_id}` (flow.py 252–305): find the node (404 if
absent), remember the old text, write the sanitized new text, commit, then
record the `update_node` undo entry.  Node ids are a primary key, so the
single matched row is updated.  A failure leaves the state unchanged
(rollback); the fault-free commit path is modelled. -/
def update_flow_node (st : AppState) (node_id : Nat) (newText : String) :
    Except (Nat × String) NodeRow × AppState :=
  match findNode st.db.nodes node_id with
  | none => (Except.error (404, "Flow node not found"), st)
  | some node =>
    let newNodes := st.db.nodes.map (fun n =>
      if n.id == node_id then { n with text := sanitize_http_to_https newText } else n)
    let updated := { node with text := sanitize_http_to_https newText }
    (Except.ok updated,
      { db := { st.db with nodes := newNodes },
        undo_history := recordUndo st.undo_history node.project_id
          (UndoEntry.updateNode node_id node.text) })

/-- `POST /flow/nodes` (flow.py 308–360): verify the project exists (404),
insert a node with the sanitized text and the given order (id assigned by the
database), commit, record the `create_node` undo entry. -/
def create_flow_node (st : AppState) (project_id : Nat) (text : String) (order : Int) :
    Except (Nat × String) NodeRow × AppState :=
  if !(st.db.projects.contains project_id) then
    (Except.error (404, "Project not found"), st)
  else
    let node : NodeRow := ⟨st.db.nextNodeId, project_id, sanitize_http_to_https text, order, none, none⟩
    (Except.ok node,
      { db := { st.db with nodes := st.db.nodes ++ [node], nextNodeId := st.db.nextNodeId + 1 },
        undo_history := recordUndo st.undo_history project_id (UndoEntry.createNode node.id) })

/-- `DELETE /flow/nodes/{node_id}` (flow.py 489–534): find the node (404),
record the `delete_node` undo entry with the node's text/order/project_id,
delete the row, commit. -/
def delete_flow_node (st : AppState) (node_id : Nat) :
    Except (Nat × String) Unit × AppState :=
  match findNode st.db.nodes node_id with
  | none => (Except.error (404, "Flow node not found"), st)
  | some node =>
    (Except.ok (),
      { db := { st.db with nodes := st.db.nodes.filter (fun n => n.id != node_id) },
        undo_history := recordUndo st.undo_history node.project_id
          (UndoEntry.deleteNode node_id node.text node.order node.project_id) })

/-- The sequential update loop of the reorder endpoint (flow.py 573–589):
for each `{"id": ..., "order": ...}` item look the node up by id AND
project id; a miss raises the 404 `HTTPException`, otherwise the node's
order is set in the session. -/
def applyReorderItems (pid : Nat) (nodes : List NodeRow) :
    List (Nat × Int) → Except (Nat × String) (List NodeRow)
  | [] => Except.ok nodes
  | (nid, newOrder) :: rest =>
    match nodes.find? (fun n => n.id == nid && n.project_id == pid) with
    | none => Except.error (404, "Flow node not found in project")
    | some _ =>
      applyReorderItems pid
        (nodes.map (fun n =>
          if n.id == nid && n.project_id == pid then { n with order := newOrder } else n))
        rest

/-- `PUT /projects/{project_id}/flow/reorder` (flow.py 537–615): verify the
project (404), snapshot `old_orders` for every node of the project, apply the
items sequentially; an invalid id raises the 404 `HTTPException`, which the
`except HTTPException` clause answers after `db.rollback()` — the original
state is returned and the undo slot is untouched (recording happens only
after the commit).  On success: commit, record the `reorder_nodes` entry,
return the project's nodes by order. -/
def reorder_flow_nodes (st : AppState) (project_id : Nat) (node_orders : List (Nat × Int)) :
    Except (Nat × String) (List NodeRow) × AppState :=
  if !(st.db.projects.contains project_id) then
    (Except.error (404, "Project not found"), st)
  else
    let old_orders := (st.db.nodes.filter (fun n => n.project_id == project_id)).map
      (fun n => (n.id, n.order))
    match applyReorderItems project_id st.db.nodes node_orders with
    | Except.error e => (Except.error e, st)
    | Except.ok newNodes =>
      (Except.ok (sortNodesByOrder (newNodes.filter (fun n => n.project_id == project_id))),
        { db := { st.db with nodes := newNodes },
          undo_history := recordUndo st.undo_history project_id
            (UndoEntry.reorderNodes old_orders) })

/-- The restore loop of the `reorder_nodes` undo branch (flow.py 679–685):
for each stored `(node_id, old_order)` pair, look the node up by id (no
project filter in the source) and set its order. -/
def applyOldOrders (nodes : List NodeRow) (old_orders : List (Nat × Int)) : List NodeRow :=
  old_orders.foldl
    (fun acc u => acc.map (fun n => if n.id == u.1 then { n with order := u.2 } else n))
    nodes

/-- `POST /projects/{project_id}/flow/undo` (flow.py 618–706): verify the
project (404); 400 "No operation to undo" when the project's slot is empty;
otherwise invert the recorded operation — `create_node`: delete the node by
id if present; `delete_node`: reinsert a node with the stored
text/order/project_id (a NEW database-assigned id); `update_node`: restore
the stored old text; `reorder_nodes`: restore each stored id→order pair —
commit, clear the slot, and return the project's nodes by order. -/
def undo_flow_operation (st : AppState) (project_id : Nat) :
    Except (Nat × String) (List NodeRow) × AppState :=
  if !(st.db.projects.contains project_id) then
    (Except.error (404, "Project not found"), st)
  else
    match lookupUndo st.undo_history project_id with
    | none => (Except.error (400, "No operation to undo"), st)
    | some entry =>
      let db1 :=
        match entry with
        | UndoEntry.createNode nid =>
          { st.db with nodes := st.db.nodes.filter (fun n => n.id != nid) }
        | UndoEntry.deleteNode _nid text order pid =>
          { st.db with
              nodes := st.db.nodes ++ [⟨st.db.nextNodeId, pid, text, order, none, none⟩],
              nextNodeId := st.db.nextNodeId + 1 }
        | UndoEntry.updateNode nid old_text =>
          { st.db with nodes := st.db.nodes.map (fun n =>
              if n.id == nid then { n with text := old_text } else n) }
        | UndoEntry.reorderNodes old_orders =>
          { st.db with nodes := applyOldOrders st.db.nodes old_orders }
      (Except.ok (sortNodesByOrder (db1.nodes.filter (fun n => n.project_id == project_id))),
        { db := db1, undo_history := clearUndo st.undo_history project_id })

/-! ## The four mutating operations as one alphabet, for claim P5 -/

inductive MutOp where
  | createOp (project_id : Nat) (text : String) (order : Int)
  | updateOp (node_id : Nat) (text : String)
  | deleteOp (node_id : Nat)
  | reorderOp (project_id : Nat) (node_orders : List (Nat × Int))
deriving DecidableEq, Repr

/-- Run one mutating endpoint, keeping only success/failure and the
post-state. -/
def applyMutOp (st : AppState) : MutOp → Except (Nat × String) AppState
  | MutOp.createOp p t o =>
    match create_flow_node st p t o with
    | (Except.ok _, st1) => Except.ok st1
    | (Except.error e, _) => Except.error e
  | MutOp.updateOp nid t =>
    match update_flow_node st nid t with
    | (Except.ok _, st1) => Except.ok st1
    | (Except.error e, _) => Except.error e
  | MutOp.deleteOp nid =>
    match delete_flow_node st nid with
    | (Except.ok _, st1) => Except.ok st1
    | (Except.error e, _) => Except.error e
  | MutOp.reorderOp p us =>
    match reorder_flow_nodes st p us with
    | (Except.ok _, st1) => Except.ok st1
    | (Except.error e, _) => Except.error e

/-- The project whose undo slot the operation writes: the request's project
for create/reorder, the targeted node's project for update/delete. -/
def mutOpProject (st : AppState) : MutOp → Option Nat
  | MutOp.createOp p _ _ => some p
  | MutOp.reorderOp p _ => some p
  | MutOp.updateOp nid _ => (findNode st.db.nodes nid).map (fun n => n.project_id)
  | MutOp.deleteOp nid => (findNode st.db.nodes nid).map (fun n => n.project_id)

/-- Database well-formedness the real store guarantees: node ids are unique
(primary key) and below the generator's next value. -/
def WFState (st : AppState) : Prop :=
  (st.db.nodes.map NodeRow.id).Nodup ∧ ∀ n ∈ st.db.nodes, n.id < st.db.nextNodeId

instance (st : AppState) : Decidable (WFState st) := by
  unfold WFState; infer_instance

/-- What claim P5 means by "restores the pre-operation node set exactly":
for create-undo, update-undo and reorder-undo the node table is literally the
pre-operation one (same ids, texts and orders); for delete-undo the deleted
node's row is replaced by a recreated row with the same text, order and
project but a fresh id. -/
def RestoresExactly (st st2 : AppState) : MutOp → Prop
  | MutOp.createOp _ _ _ => st2.db.nodes = st.db.nodes
  | MutOp.updateOp _ _ => st2.db.nodes = st.db.nodes
  | MutOp.reorderOp _ _ => st2.db.nodes = st.db.nodes
  | MutOp.deleteOp nid =>
    ∀ n ∈ st.db.nodes, n.id = nid →
      ∃ n2, st2.db.nodes = (st.db.nodes.filter (fun m => m.id != nid)) ++ [n2]
        ∧ n2.text = n.text ∧ n2.order = n.order ∧ n2.project_id = n.project_id
        ∧ n2.id ∉ st.db.nodes.map NodeRow.id

/-- Whether an endpoint result is a success. -/
def isOkResult {α : Type} : Except (Nat × String) α → Bool
  | Except.ok _ => true
  | Except.error _ => false

/-- Pointwise form of the undo restore loop: the last-written order for the
node's id (first match, as the stored id→order map has unique keys). -/
def restoreFn (us : List (Nat × Int)) (n : NodeRow) : NodeRow :=
  match us.find? (fun u => u.1 == n.id) with
  | some u => { n with order := u.2 }
  | none => n

/-- Relation between the node table before and after a successful reorder:
same rows position by position except that orders of the reordered project's
nodes may change. -/
def OrderOnlyChange (p : Nat) : List NodeRow → List NodeRow → Prop :=
  List.Forall₂ (fun a b =>
    b.id = a.id ∧ b.project_id = a.project_id ∧ b.text = a.text
      ∧ b.actor = a.actor ∧ b.step = a.step
      ∧ (a.project_id ≠ p → b.order = a.order))

/-! ## Concrete instances used by counterexamples and witnesses -/

/-- A well-formed actor item. -/
def mkActor (n : String) : PyVal :=
  PyVal.pdict [("name", PyVal.pstr n), ("role", PyVal.pstr "r")]

/-- A well-formed step item. -/
def mkStep (n : String) : PyVal :=
  PyVal.pdict [("name", PyVal.pstr n), ("description", PyVal.pstr "d")]

/-- A well-formed flow node item with actor "A" and step "S". -/
def mkNode (t : String) (o : Int) : PyVal :=
  PyVal.pdict [("text", PyVal.pstr t), ("order", PyVal.pint o),
    ("actor", PyVal.pstr "A"), ("step", PyVal.pstr "S")]

/-- A well-formed edge item. -/
def c4goodEdge : PyVal :=
  PyVal.pdict [("from_order", PyVal.pint 0), ("to_order", PyVal.pint 1)]

/-- A malformed edge item (missing `to_order`, string `from_order`). -/
def c4badEdge : PyVal :=
  PyVal.pdict [("from_order", PyVal.pstr "x")]

/-- A decoded model response that passes `_parse_ai_response`, carrying one
well-formed and one malformed edge. -/
def c4resp : PyVal :=
  PyVal.pdict
    [ ("actors", PyVal.plist [mkActor "A", mkActor "B", mkActor "C"]),
      ("steps", PyVal.plist [mkStep "S", mkStep "T", mkStep "U"]),
      ("flow_nodes", PyVal.plist [mkNode "n0" 0, mkNode "n1" 1, mkNode "n2" 2]),
      ("edges", PyVal.plist [c4goodEdge, c4badEdge]) ]

/-- The parse result of `c4resp`. -/
def c4parsed : ParsedResponse :=
  ⟨[mkActor "A", mkActor "B", mkActor "C"],
   [mkStep "S", mkStep "T", mkStep "U"],
   [mkNode "n0" 0, mkNode "n1" 1, mkNode "n2" 2],
   [c4goodEdge, c4badEdge]⟩

/-- A parsed flow with in-bound counts whose node orders are [0, 0, 1]. -/
def c5dupFlow : ParsedResponse :=
  ⟨[mkActor "A", mkActor "B", mkActor "C"],
   [mkStep "S", mkStep "T", mkStep "U"],
   [mkNode "n0" 0, mkNode "n1" 0, mkNode "n2" 1],
   []⟩

/-- Initial database for the reconciliation counterexample: project 1 with
one node and one edge. -/
def c1db0 : DB :=
  ⟨[1], [⟨1, 1, "old step", 0, none, none⟩], [⟨1, 1, 0, 0, none⟩], 2, 2⟩

/-- The newly generated node set of the counterexample. -/
def c1nds : List GenNodeData :=
  [⟨"new a", 0, some "A", some "S"⟩, ⟨"new b", 1, some "B", some "S"⟩,
   ⟨"new c", 2, some "A", some "T"⟩]

/-- The newly generated edge set of the counterexample. -/
def c1eds : List GenEdgeData :=
  [⟨0, 1, none⟩]

/-- The complete new flow state (content view) the claim would allow. -/
def c1newNodeView : List (String × Int) :=
  c1nds.map (fun d => (d.text, d.order))

/-- The complete new edge state (content view) the claim would allow. -/
def c1newEdgeView : List (Int × Int) :=
  c1eds.map (fun d => (d.from_order, d.to_order))

/-- Attempt-outcome oracle for the retry-classification witness: rate limit,
then connection error, then timeout. -/
def c6out : Nat → AttemptResult
  | 0 => AttemptResult.rateLimitErr "r"
  | 1 => AttemptResult.connectionErr "c"
  | _ => AttemptResult.timeoutErr

/-- Attempt-outcome oracle that times out on every attempt. -/
def c7out : Nat → AttemptResult := fun _ => AttemptResult.timeoutErr

/-- A hearing log of 10001 characters, for the truncation witness. -/
def c9big : String :=
  String.mk (List.replicate 10001 'a')

/-- Concrete application state for the undo and reorder witnesses:
project 1 with two nodes. -/
def c3st : AppState :=
  ⟨⟨[1], [⟨1, 1, "t0", 0, none, none⟩, ⟨2, 1, "t1", 1, none, none⟩], [], 3, 1⟩, []⟩

/-- The concrete mutating operation of the undo witness. -/
def c3op : MutOp :=
  MutOp.updateOp 1 "t0 edited"

/-- The state after `c3op` on `c3st`. -/
def c3st1 : AppState :=
  ⟨⟨[1], [⟨1, 1, "t0 edited", 0, none, none⟩, ⟨2, 1, "t1", 1, none, none⟩], [], 3, 1⟩,
   [(1, UndoEntry.updateNode 1 "t0")]⟩

/-! # Theorems -/

/-! ## Sanitizer (claim C8 / spec P4) -/

/-- A text with no case-insensitive `http://` occurrence passes through the
scan unchanged, for any fuel. -/
theorem sanitizeChars_of_not_contains (fuel : Nat) :
    ∀ cs : List Char, containsHttpScheme cs = false → sanitizeChars fuel cs = cs := by
  induction fuel with
  | zero => intro cs _; rfl
  | succ fuel ih =>
    intro cs h
    cases cs with
    | nil => rfl
    | cons c rest =>
      simp only [containsHttpScheme, Bool.or_eq_false_iff] at h
      cases hm : matchHttpScheme (c :: rest) with
      | some v => rw [hm] at h; simp at h
      | none =>
        simp only [sanitizeChars, hm]
        rw [ih rest h.2]

/-- C8, counterexample: the sanitizer is NOT idempotent.  Rewriting
`http://http://a` consumes `http://http` as scheme+domain and yields
`https://http://a`, which contains a fresh `http://` occurrence that a second
application rewrites again. -/
theorem sanitizer_not_idempotent :
    sanitize_http_to_https (sanitize_http_to_https "http://http://a") ≠
      sanitize_http_to_https "http://http://a" := by
  decide

/-- C8 (amended): a string containing no occurrence of `http://`
(case-insensitively) is returned unchanged by `sanitize_http_to_https`; full
idempotence fails (see the counterexample). -/
theorem sanitizer_fixed_on_no_http (s : String) (h : containsHttpScheme s.data = false) :
    sanitize_http_to_https s = s := by
  unfold sanitize_http_to_https
  rw [sanitizeChars_of_not_contains _ _ h]

/-- Witness for `sanitizer_fixed_on_no_http` at a concrete input. -/
theorem sanitizer_fixed_on_no_http_witness :
    containsHttpScheme "no links here".data = false ∧
    sanitize_http_to_https "no links here" = "no links here" :=
  ⟨by decide, sanitizer_fixed_on_no_http "no links here" (by decide)⟩

/-! ## Structural validation error codes (claim C5) -/

/-- C5, counterexample: a parsed flow whose order values are `[0, 0, 1]`
fails `_validate_flow_structure` with the `node_ordering` error, not the
claimed `duplicate_orders` error. -/
theorem duplicate_orders_reports_node_ordering :
    (c5dupFlow.flow_nodes.map getOrderInt = [0, 0, 1]
        ∧ ¬ (c5dupFlow.flow_nodes.map getOrderInt).Nodup) ∧
    validate_flow_structure c5dupFlow =
      Except.error ⟨"Flow nodes must have sequential ordering starting from 0",
        some "node_ordering"⟩ :=
  ⟨⟨rfl, by decide⟩, rfl⟩

/-- C5 (amended): for every parsed flow within the count bounds whose order
values contain a duplicate, validation fails with `node_ordering` — the
`duplicate_orders` branch is unreachable, because duplicated values already
make `sorted(orders)` differ from `[0, …, N-1]` and the sequential-ordering
check precedes the duplicate check (ai.py 479 before 487). -/
theorem duplicate_orders_unreachable (fd : ParsedResponse)
    (ha1 : 3 ≤ fd.actors.length) (ha2 : fd.actors.length ≤ 5)
    (hs1 : 3 ≤ fd.steps.length) (hs2 : fd.steps.length ≤ 10)
    (hn1 : 3 ≤ fd.flow_nodes.length) (hn2 : fd.flow_nodes.length ≤ 30)
    (hdup : ¬ (fd.flow_nodes.map getOrderInt).Nodup) :
    validate_flow_structure fd =
      Except.error ⟨"Flow nodes must have sequential ordering starting from 0",
        some "node_ordering"⟩ := by
  have hsort : sortedOrders (fd.flow_nodes.map getOrderInt) ≠
      (List.range fd.flow_nodes.length).map Int.ofNat := by
    intro he
    apply hdup
    have hperm : (fd.flow_nodes.map getOrderInt).Perm
        (sortedOrders (fd.flow_nodes.map getOrderInt)) :=
      (List.perm_insertionSort _ _).symm
    rw [he] at hperm
    have hnd : ((List.range fd.flow_nodes.length).map Int.ofNat).Nodup :=
      (List.nodup_range _).map (fun a b hab => Int.ofNat.inj hab)
    exact hperm.symm.nodup hnd
  simp only [validate_flow_structure]
  rw [if_neg (by omega : ¬(fd.actors.length < 3 ∨ fd.actors.length > 5))]
  rw [if_neg (by omega : ¬(fd.steps.length < 3 ∨ fd.steps.length > 10))]
  rw [if_neg (by omega : ¬(fd.flow_nodes.length < 3 ∨ fd.flow_nodes.length > 30))]
  rw [if_pos hsort]

/-- Witness for `duplicate_orders_unreachable` at the concrete flow. -/
theorem duplicate_orders_unreachable_witness :
    (3 ≤ c5dupFlow.actors.length ∧ c5dupFlow.actors.length ≤ 5
      ∧ 3 ≤ c5dupFlow.steps.length ∧ c5dupFlow.steps.length ≤ 10
      ∧ 3 ≤ c5dupFlow.flow_nodes.length ∧ c5dupFlow.flow_nodes.length ≤ 30
      ∧ ¬ (c5dupFlow.flow_nodes.map getOrderInt).Nodup) ∧
    validate_flow_structure c5dupFlow =
      Except.error ⟨"Flow nodes must have sequential ordering starting from 0",
        some "node_ordering"⟩ :=
  ⟨⟨by decide, by decide, by decide, by decide, by decide, by decide, by decide⟩,
    duplicate_orders_unreachable c5dupFlow (by decide) (by decide) (by decide)
      (by decide) (by decide) (by decide) (by decide)⟩

/-! ## Route status for validation failures (claim C2) -/

/-- C2: a `ValidationError` from the Response Validator reaching
`generate_flow`'s except-chain is answered with HTTP 500, not the claimed
400 — `ValidationError` derives `BusinessFlowException(Exception)`, not
`ValueError`, so the route's `except ValueError → 400` branch (flow.py 148)
never fires and the catch-all `except Exception → 500` (flow.py 160) does. -/
theorem validation_error_maps_to_500 (e : VErr) :
    generate_flow_error_status (ServiceException.validationExc e) = 500 ∧
    generate_flow_error_status (ServiceException.validationExc e) ≠ 400 :=
  ⟨rfl, by
    intro h
    simp [generate_flow_error_status, isValueErrorInstance, isRuntimeErrorInstance] at h⟩

/-! ## Edge tolerance of the Response Validator (claim C4) -/

/-- C4, counterexample: a response accepted by `_parse_ai_response` whose
edges list holds a malformed edge — the malformed edge is NOT dropped: it is
present in the returned edges. -/
theorem malformed_edge_passed_through :
    parse_ai_response c4resp = Except.ok c4parsed ∧
    c4badEdge ∈ c4parsed.edges ∧
    isWellFormedEdge c4badEdge = false :=
  ⟨rfl, by simp [c4parsed], rfl⟩

/-- C4 (amended): for every accepted response the returned edges are exactly
the decoded `edges` value when it is a list (and `[]` when the key is absent
or not a list) — the per-edge checks of ai.py 408–418 only log warnings and
`continue`; they never remove an edge. -/
theorem edges_returned_unfiltered (parsed : PyVal) (r : ParsedResponse)
    (h : parse_ai_response parsed = Except.ok r) :
    ∃ kvs, parsed = PyVal.pdict kvs ∧ r.edges = edgesSection kvs := by
  cases parsed with
  | pdict kvs =>
    refine ⟨kvs, rfl, ?_⟩
    simp only [parse_ai_response] at h
    repeat' split at h
    all_goals simp_all
    subst h
    rfl
  | pstr s => simp [parse_ai_response] at h
  | pint n => simp [parse_ai_response] at h
  | pbool b => simp [parse_ai_response] at h
  | plist xs => simp [parse_ai_response] at h
  | pnone => simp [parse_ai_response] at h

/-- Witness for `edges_returned_unfiltered` at the concrete response. -/
theorem edges_returned_unfiltered_witness :
    parse_ai_response c4resp = Except.ok c4parsed ∧
    (∃ kvs, c4resp = PyVal.pdict kvs ∧ c4parsed.edges = edgesSection kvs) :=
  ⟨rfl, edges_returned_unfiltered c4resp c4parsed rfl⟩

/-! ## Reconciliation atomicity (claim C1 / spec P6) -/

/-- Deleting a project's rows then filtering for that project leaves
nothing. -/
theorem filter_proj_after_delete_nodes (l : List NodeRow) (pid : Nat) :
    (l.filter (fun n => n.project_id != pid)).filter (fun n => n.project_id == pid) = [] := by
  induction l with
  | nil => rfl
  | cons x xs ih => by_cases hx : x.project_id = pid <;> simp [List.filter_cons, hx, ih]

/-- Same for edge rows. -/
theorem filter_proj_after_delete_edges (l : List EdgeRow) (pid : Nat) :
    (l.filter (fun e => e.project_id != pid)).filter (fun e => e.project_id == pid) = [] := by
  induction l with
  | nil => rfl
  | cons x xs ih => by_cases hx : x.project_id = pid <;> simp [List.filter_cons, hx, ih]

/-- Every row inserted for the project belongs to the project. -/
theorem filter_proj_insertGenNodes (pid : Nat) (nds : List GenNodeData) :
    ∀ nid, (insertGenNodes pid nid nds).filter (fun n => n.project_id == pid) =
      insertGenNodes pid nid nds := by
  induction nds with
  | nil => intro nid; rfl
  | cons d rest ih => intro nid; simp [insertGenNodes, List.filter_cons, ih]

/-- C1 (amended): when the edge phase of the reconciliation fails after the
node commit (flow.py 111), the endpoint answers 500 but the rollback can
discard only the uncommitted edge inserts: subsequent reads see exactly the
new node set with no edges for the project — the old flow is gone and the
new flow's edges are missing.  Atomicity holds only for failures before the
first commit. -/
theorem generate_flow_edge_failure_not_atomic (db : DB) (pid : Nat)
    (nds : List GenNodeData) (eds : List GenEdgeData) (h : eds ≠ []) :
    (generate_flow_reconcile db pid nds eds true).1 = 500 ∧
    projNodes (generate_flow_reconcile db pid nds eds true).2 pid =
      insertGenNodes pid db.nextNodeId nds ∧
    projEdges (generate_flow_reconcile db pid nds eds true).2 pid = [] := by
  have he : eds.isEmpty = false := by
    cases eds with
    | nil => exact absurd rfl h
    | cons a as => rfl
  have hdb : generate_flow_reconcile db pid nds eds true =
      (500, ⟨db.projects,
        db.nodes.filter (fun n => n.project_id != pid) ++ insertGenNodes pid db.nextNodeId nds,
        db.edges.filter (fun e => e.project_id != pid),
        db.nextNodeId + nds.length, db.nextEdgeId⟩) := by
    simp [generate_flow_reconcile, he]
  refine ⟨by rw [hdb], ?_, ?_⟩
  · rw [hdb]
    simp only [projNodes, List.filter_append]
    rw [filter_proj_after_delete_nodes, filter_proj_insertGenNodes]
    simp
  · rw [hdb]
    simp only [projEdges]
    exact filter_proj_after_delete_edges db.edges pid

/-- C1, counterexample: with project 1 holding one node and one edge and a
new flow of three nodes and one edge, an edge-phase failure leaves the
persisted flow equal to NEITHER the complete old state NOR the complete new
state: the new nodes are committed, the edges are empty. -/
theorem generate_flow_edge_failure_cex :
    (generate_flow_reconcile c1db0 1 c1nds c1eds true).1 = 500 ∧
    ¬ ((projNodeView (generate_flow_reconcile c1db0 1 c1nds c1eds true).2 1,
        projEdgeView (generate_flow_reconcile c1db0 1 c1nds c1eds true).2 1)
          = (projNodeView c1db0 1, projEdgeView c1db0 1)
      ∨ (projNodeView (generate_flow_reconcile c1db0 1 c1nds c1eds true).2 1,
         projEdgeView (generate_flow_reconcile c1db0 1 c1nds c1eds true).2 1)
          = (c1newNodeView, c1newEdgeView)) :=
  ⟨rfl, by decide⟩

/-- Witness for `generate_flow_edge_failure_not_atomic`. -/
theorem generate_flow_edge_failure_witness :
    c1eds ≠ [] ∧
    ((generate_flow_reconcile c1db0 1 c1nds c1eds true).1 = 500 ∧
     projNodes (generate_flow_reconcile c1db0 1 c1nds c1eds true).2 1 =
       insertGenNodes 1 c1db0.nextNodeId c1nds ∧
     projEdges (generate_flow_reconcile c1db0 1 c1nds c1eds true).2 1 = []) :=
  ⟨by decide, generate_flow_edge_failure_not_atomic c1db0 1 c1nds c1eds (by decide)⟩

/-! ## Retry classification (claims C6, C7 / spec P7) -/

/-- Exhausting the loop on retryable failures: three attempts, the bare last
recorded error, and exactly the sleeps of the first two attempts. -/
theorem attemptLoop_all_retryable (outcome : Nat → AttemptResult)
    (h0 : RetryableOutcome (outcome 0)) (h1 : RetryableOutcome (outcome 1))
    (h2 : RetryableOutcome (outcome 2)) :
    attemptLoop outcome 3 3 0 none =
      (Except.error (GenError.service (recordedErrorOf 2 (outcome 2))), 3,
        claimedDelay 0 (outcome 0) ++ claimedDelay 1 (outcome 1)) := by
  rcases h0 with h0 | ⟨m0, h0⟩ | ⟨m0, h0⟩ <;>
  rcases h1 with h1 | ⟨m1, h1⟩ | ⟨m1, h1⟩ <;>
  rcases h2 with h2 | ⟨m2, h2⟩ | ⟨m2, h2⟩ <;>
    simp [attemptLoop, h0, h1, h2, claimedDelay]

/-- `generate_business_flow` on valid input: the truncated prompt content and
the loop results. -/
theorem generate_run (logs : List String) (outcome : Nat → AttemptResult)
    (hne : logs.isEmpty = false)
    (hnb : logs.all (fun l => !(isBlankStr l)) = true) :
    generate_business_flow true logs outcome =
      Except.ok ⟨(if (String.intercalate "\n\n" logs).data.length > 10000
          then String.mk ((String.intercalate "\n\n" logs).data.take 10000) ++ "..."
          else String.intercalate "\n\n" logs),
        (attemptLoop outcome 3 3 0 none).1,
        (attemptLoop outcome 3 3 0 none).2.1,
        (attemptLoop outcome 3 3 0 none).2.2⟩ := by
  simp [generate_business_flow, hne, hnb, max_retries]

/-- C6: under the abstracted fault model, retryable faults (timeout, rate
limit, connection) on every attempt lead to 3 total attempts and a surfaced
failure, with the sleeps the claim specifies — `2 ^ attempt` after a rate
limit, `attempt + 1` after a connection error, none after a timeout, and no
sleep after the final attempt; whereas a validation failure on the first
attempt surfaces immediately after exactly 1 attempt with no sleeps. -/
theorem retry_classification (logs : List String) (outcome : Nat → AttemptResult)
    (hne : logs.isEmpty = false)
    (hnb : logs.all (fun l => !(isBlankStr l)) = true) :
    ((∀ i, i < 3 → RetryableOutcome (outcome i)) →
      runAttemptsOf (generate_business_flow true logs outcome) = 3 ∧
      runFailedWithService (generate_business_flow true logs outcome) = true ∧
      runSleepsOf (generate_business_flow true logs outcome) =
        claimedDelay 0 (outcome 0) ++ claimedDelay 1 (outcome 1)) ∧
    (∀ e, outcome 0 = AttemptResult.validationErr e →
      runAttemptsOf (generate_business_flow true logs outcome) = 1 ∧
      runResultOf (generate_business_flow true logs outcome) =
        some (Except.error (GenError.validation e)) ∧
      runSleepsOf (generate_business_flow true logs outcome) = []) := by
  rw [generate_run logs outcome hne hnb]
  constructor
  · intro h
    rw [attemptLoop_all_retryable outcome (h 0 (by norm_num)) (h 1 (by norm_num))
      (h 2 (by norm_num))]
    exact ⟨rfl, rfl, rfl⟩
  · intro e he
    rw [show attemptLoop outcome 3 3 0 none = (Except.error (GenError.validation e), 1, [])
      from by simp [attemptLoop, he]]
    exact ⟨rfl, rfl, rfl⟩

/-- Witness for `retry_classification`: rate limit, connection error and
timeout on the three attempts give 3 attempts and the sleeps [1, 2]. -/
theorem retry_classification_witness :
    ((["log a"].isEmpty = false) ∧ (["log a"].all (fun l => !(isBlankStr l)) = true)
      ∧ (∀ i, i < 3 → RetryableOutcome (c6out i))) ∧
    (runAttemptsOf (generate_business_flow true ["log a"] c6out) = 3 ∧
     runFailedWithService (generate_business_flow true ["log a"] c6out) = true ∧
     runSleepsOf (generate_business_flow true ["log a"] c6out) =
       claimedDelay 0 (c6out 0) ++ claimedDelay 1 (c6out 1)) :=
  ⟨⟨rfl, by decide, fun i _hi => by
      match i with
      | 0 => exact Or.inr (Or.inl ⟨"r", rfl⟩)
      | 1 => exact Or.inr (Or.inr ⟨"c", rfl⟩)
      | n + 2 => exact Or.inl rfl⟩,
    (retry_classification ["log a"] c6out rfl (by decide)).1 (fun i _hi => by
      match i with
      | 0 => exact Or.inr (Or.inl ⟨"r", rfl⟩)
      | 1 => exact Or.inr (Or.inr ⟨"c", rfl⟩)
      | n + 2 => exact Or.inl rfl)⟩

/-- C7 (amended): after exhausting all attempts on retryable failures, the
error surfaced is the LAST recorded per-attempt `AIServiceError` raised
bare (its `ai_error_type` is timeout/rate_limit/connection), not the generic
`retry_exhausted` wrapper — `raise last_error or AIServiceError(...)` only
falls back to the generic error when `last_error` is None, which cannot
happen once an attempt has failed. -/
theorem exhausted_retries_raise_bare_last_error (logs : List String)
    (outcome : Nat → AttemptResult)
    (hne : logs.isEmpty = false)
    (hnb : logs.all (fun l => !(isBlankStr l)) = true)
    (h : ∀ i, i < 3 → RetryableOutcome (outcome i)) :
    runResultOf (generate_business_flow true logs outcome) =
      some (Except.error (GenError.service (recordedErrorOf 2 (outcome 2)))) ∧
    (recordedErrorOf 2 (outcome 2)).aiErrorType ≠ "retry_exhausted" := by
  constructor
  · rw [generate_run logs outcome hne hnb,
      attemptLoop_all_retryable outcome (h 0 (by norm_num)) (h 1 (by norm_num))
        (h 2 (by norm_num))]
    rfl
  · rcases h 2 (by norm_num) with h2 | ⟨m, h2⟩ | ⟨m, h2⟩ <;> simp [h2, recordedErrorOf]

/-- C7, counterexample: three timeouts surface the bare attempt-3 timeout
error ("AI request timed out after 90 seconds (attempt 3)", tag "timeout"),
not the last error wrapped as the generic "failed after all retries" error. -/
theorem exhausted_retries_bare_error_cex :
    runResultOf (generate_business_flow true ["log a"] c7out) =
      some (Except.error (GenError.service
        ⟨"AI request timed out after 90 seconds (attempt 3)", "timeout"⟩)) ∧
    ("timeout" ≠ "retry_exhausted" ∧
     "AI request timed out after 90 seconds (attempt 3)" ≠
       "AI flow generation failed after all retry attempts") :=
  ⟨rfl, by decide⟩

/-- Witness for `exhausted_retries_raise_bare_last_error`. -/
theorem exhausted_retries_bare_witness :
    ((["log a"].isEmpty = false) ∧ (["log a"].all (fun l => !(isBlankStr l)) = true)
      ∧ (∀ i, i < 3 → RetryableOutcome (c7out i))) ∧
    (runResultOf (generate_business_flow true ["log a"] c7out) =
      some (Except.error (GenError.service (recordedErrorOf 2 (c7out 2)))) ∧
     (recordedErrorOf 2 (c7out 2)).aiErrorType ≠ "retry_exhausted") :=
  ⟨⟨rfl, by decide, fun _ _ => Or.inl rfl⟩,
    exhausted_retries_raise_bare_last_error ["log a"] c7out
      rfl (by decide) (fun _ _ => Or.inl rfl)⟩

/-! ## Prompt truncation (claim C9) -/

/-- C9: on valid input the prompt builder never fails; when the
`"\n\n"`-joined hearing content exceeds 10000 characters the content embedded
in the prompt is its first 10000 characters followed by the `"..."` marker,
and otherwise the content is embedded unchanged. -/
theorem prompt_truncation_policy (logs : List String) (outcome : Nat → AttemptResult)
    (hne : logs.isEmpty = false)
    (hnb : logs.all (fun l => !(isBlankStr l)) = true) :
    ((String.intercalate "\n\n" logs).data.length > 10000 →
      runPromptOf (generate_business_flow true logs outcome) =
        some (String.mk ((String.intercalate "\n\n" logs).data.take 10000) ++ "...")) ∧
    ((String.intercalate "\n\n" logs).data.length ≤ 10000 →
      runPromptOf (generate_business_flow true logs outcome) =
        some (String.intercalate "\n\n" logs)) := by
  rw [generate_run logs outcome hne hnb]
  constructor
  · intro h
    simp only [runPromptOf]
    rw [if_pos h]
  · intro h
    simp only [runPromptOf]
    rw [if_neg (by omega)]

/-- Witness for `prompt_truncation_policy` at a 10001-character log. -/
theorem prompt_truncation_policy_witness :
    (([c9big].isEmpty = false) ∧ ([c9big].all (fun l => !(isBlankStr l)) = true)
      ∧ (String.intercalate "\n\n" [c9big]).data.length > 10000) ∧
    runPromptOf (generate_business_flow true [c9big] c7out) =
      some (String.mk ((String.intercalate "\n\n" [c9big]).data.take 10000) ++ "...") :=
  ⟨⟨rfl, by decide, by
      rw [show String.intercalate "\n\n" [c9big] = c9big from rfl,
        show c9big.data = List.replicate 10001 'a' from rfl, List.length_replicate]
      norm_num⟩,
    (prompt_truncation_policy [c9big] c7out rfl (by decide)).1
      (by
        rw [show String.intercalate "\n\n" [c9big] = c9big from rfl,
          show c9big.data = List.replicate 10001 'a' from rfl, List.length_replicate]
        norm_num)⟩

/-! ## Reorder atomicity on invalid input (claim C10) -/

/-- The sequential reorder loop fails with the 404 as soon as some request
item names a node that is not in the project — validity of the remaining
items is unaffected by the order-only updates of earlier valid items. -/
theorem applyReorderItems_bad (p : Nat) :
    ∀ (us : List (Nat × Int)) (nodes : List NodeRow),
      (∃ q ∈ us, ∀ n ∈ nodes, ¬(n.id = q.1 ∧ n.project_id = p)) →
      applyReorderItems p nodes us = Except.error (404, "Flow node not found in project") := by
  intro us
  induction us with
  | nil =>
    intro nodes h
    rcases h with ⟨q, hq, _⟩
    simp at hq
  | cons u rest ih =>
    intro nodes h
    rcases h with ⟨q, hq, hnone⟩
    simp only [applyReorderItems]
    cases hfind : nodes.find? (fun n => n.id == u.1 && n.project_id == p) with
    | none => rfl
    | some m =>
      rcases List.mem_cons.mp hq with hq0 | hqrest
      · have hm := List.find?_some hfind
        have hmem := List.mem_of_find?_eq_some hfind
        subst hq0
        simp only [Bool.and_eq_true, beq_iff_eq] at hm
        exact absurd hm (hnone m hmem)
      · apply ih
        refine ⟨q, hqrest, ?_⟩
        intro n hn
        rcases List.mem_map.mp hn with ⟨n0, hn0, rfl⟩
        intro hcontra
        apply hnone n0 hn0
        by_cases hc : (n0.id == u.1 && n0.project_id == p) = true
        · rw [if_pos hc] at hcontra
          exact hcontra
        · rw [if_neg hc] at hcontra
          exact hcontra

/-- C10: a reorder request containing at least one node id that does not
belong to the project fails with 404 and leaves the whole application state
unchanged — every node's order (including nodes named earlier in the same
request, whose session updates are rolled back) and the project's undo slot
(recording happens only after the commit). -/
theorem reorder_invalid_id_atomic (st : AppState) (p : Nat) (node_orders : List (Nat × Int))
    (hp : st.db.projects.contains p = true)
    (hbad : ∃ q ∈ node_orders, ∀ n ∈ st.db.nodes, ¬(n.id = q.1 ∧ n.project_id = p)) :
    (reorder_flow_nodes st p node_orders).1 =
      Except.error (404, "Flow node not found in project") ∧
    (reorder_flow_nodes st p node_orders).2 = st := by
  have herr := applyReorderItems_bad p node_orders st.db.nodes hbad
  have hmem : p ∈ st.db.projects := by simpa using hp
  simp [reorder_flow_nodes, herr, hmem]

/-- Witness for `reorder_invalid_id_atomic`: node id 99 belongs to no node
of project 1. -/
theorem reorder_invalid_id_atomic_witness :
    (c3st.db.projects.contains 1 = true ∧
     ∃ q ∈ [((99 : Nat), (0 : Int))], ∀ n ∈ c3st.db.nodes, ¬(n.id = q.1 ∧ n.project_id = 1)) ∧
    ((reorder_flow_nodes c3st 1 [(99, 0)]).1 =
       Except.error (404, "Flow node not found in project") ∧
     (reorder_flow_nodes c3st 1 [(99, 0)]).2 = c3st) :=
  ⟨⟨rfl, by decide⟩, reorder_invalid_id_atomic c3st 1 [(99, 0)] rfl (by decide)⟩



/-! ## Undo exactness (claim C3 / spec P5) -/

/-- Recording an operation makes it the project's current undo slot. -/
theorem lookupUndo_recordUndo_self (h : List (Nat × UndoEntry)) (pid : Nat) (e : UndoEntry) :
    lookupUndo (recordUndo h pid e) pid = some e := by
  simp [lookupUndo, recordUndo]

/-- Clearing a project's slot leaves no operation to undo. -/
theorem lookupUndo_clearUndo_self (h : List (Nat × UndoEntry)) (pid : Nat) :
    lookupUndo (clearUndo h pid) pid = none := by
  unfold lookupUndo clearUndo
  rw [List.find?_eq_none.mpr]
  · rfl
  · intro x hx
    rcases List.mem_filter.mp hx with ⟨_, hxf⟩
    simp only [bne_iff_ne, ne_eq] at hxf
    simp only [beq_iff_eq]
    exact hxf

/-- Field-wise extensionality for node rows. -/
theorem nodeRow_eq (m n : NodeRow) (h1 : m.id = n.id) (h2 : m.project_id = n.project_id)
    (h3 : m.text = n.text) (h4 : m.order = n.order) (h5 : m.actor = n.actor)
    (h6 : m.step = n.step) : m = n := by
  cases m
  cases n
  simp_all

/-- With unique ids (primary key), a node row is determined by its id. -/
theorem mem_id_unique (l : List NodeRow) (hnd : (l.map NodeRow.id).Nodup) :
    ∀ m ∈ l, ∀ n ∈ l, m.id = n.id → m = n := by
  induction l with
  | nil => intro m hm; simp at hm
  | cons x xs ih =>
    intro m hm n hn heq
    simp only [List.map_cons, List.nodup_cons] at hnd
    rcases hnd with ⟨hx, hxs⟩
    rcases List.mem_cons.mp hm with rfl | hm' <;> rcases List.mem_cons.mp hn with rfl | hn'
    · rfl
    · exact absurd (heq ▸ List.mem_map_of_mem NodeRow.id hn') hx
    · exact absurd (heq ▸ List.mem_map_of_mem NodeRow.id hm') hx
    · exact ih hxs m hm' n hn' heq

/-- What a successful `first()` lookup by id guarantees. -/
theorem findNode_spec (l : List NodeRow) (nid : Nat) (node : NodeRow)
    (h : findNode l nid = some node) : node ∈ l ∧ node.id = nid :=
  ⟨List.mem_of_find?_eq_some h, by simpa using List.find?_some h⟩

/-- Deleting a freshly appended row by its id restores the original
table. -/
theorem filter_id_append_new (l : List NodeRow) (x : NodeRow)
    (hfresh : ∀ n ∈ l, n.id ≠ x.id) :
    (l ++ [x]).filter (fun n => n.id != x.id) = l := by
  rw [List.filter_append]
  have h1 : l.filter (fun n => n.id != x.id) = l :=
    List.filter_eq_self.mpr (fun n hn => by simpa using hfresh n hn)
  have h2 : ([x].filter (fun n => n.id != x.id)) = [] := by simp
  rw [h1, h2, List.append_nil]

/-- Updating a node's text and then restoring the stored old text is the
identity on the node table. -/
theorem update_roundtrip (l : List NodeRow) (hnd : (l.map NodeRow.id).Nodup)
    (nid : Nat) (node : NodeRow) (t : String)
    (hfind : findNode l nid = some node) :
    (l.map (fun n => if n.id == nid then { n with text := t } else n)).map
      (fun n => if n.id == nid then { n with text := node.text } else n) = l := by
  rw [List.map_map]
  have key : ∀ n ∈ l, ((fun n => if n.id == nid then { n with text := node.text } else n) ∘
      (fun n => if n.id == nid then { n with text := t } else n)) n = n := by
    intro n hn
    rcases findNode_spec l nid node hfind with ⟨hmem, hid⟩
    by_cases h : n.id = nid
    · have hne : n = node := mem_id_unique l hnd n hn node hmem (h.trans hid.symm)
      have htext : node.text = n.text := by rw [hne]
      have hb : (n.id == nid) = true := by simpa using h
      simp only [Function.comp_apply, if_pos hb]
      rw [htext]
    · have hb : ¬((n.id == nid) = true) := by simpa using h
      simp only [Function.comp_apply, if_neg hb]
  rw [List.map_congr_left key]
  simp



/-- The undo restore loop acts pointwise: each node receives the order
stored under its id (when its id has unique keys in the stored map). -/
theorem applyOldOrders_eq_map :
    ∀ (us : List (Nat × Int)), (us.map Prod.fst).Nodup →
      ∀ l, applyOldOrders l us = l.map (restoreFn us) := by
  intro us
  induction us with
  | nil =>
    intro _ l
    have h0 : restoreFn [] = fun n => n := funext (fun n => rfl)
    simp [applyOldOrders, h0]
  | cons u tl ih =>
    intro hk l
    have hnd := by simpa only [List.map_cons, List.nodup_cons] using hk
    obtain ⟨hu, htl⟩ := hnd
    have h1 : applyOldOrders l (u :: tl) =
        applyOldOrders (l.map (fun n => if n.id == u.1 then { n with order := u.2 } else n)) tl := rfl
    rw [h1, ih htl, List.map_map]
    apply List.map_congr_left
    intro n _
    by_cases hn : n.id = u.1
    · have hfind : tl.find? (fun q => q.1 == n.id) = none := by
        apply List.find?_eq_none.mpr
        intro x hx
        simp only [beq_iff_eq]
        intro hxx
        apply hu
        rw [← hn, ← hxx]
        exact List.mem_map_of_mem Prod.fst hx
      have hb : (n.id == u.1) = true := by simpa using hn
      simp only [Function.comp_apply, if_pos hb, restoreFn]
      rw [show ({ n with order := u.2 } : NodeRow).id = n.id from rfl]
      rw [hfind]
      simp only [List.find?_cons]
      rw [show (u.1 == n.id) = true from by simpa using hn.symm]
    · have hb : ¬((n.id == u.1) = true) := by simpa using hn
      simp only [Function.comp_apply, if_neg hb, restoreFn]
      simp only [List.find?_cons]
      rw [show (u.1 == n.id) = false from by simpa using (Ne.symm hn)]



/-- `OrderOnlyChange` is reflexive. -/
theorem OOC_refl (p : Nat) (l : List NodeRow) : OrderOnlyChange p l l := by
  induction l with
  | nil => exact List.Forall₂.nil
  | cons x xs ih => exact List.Forall₂.cons ⟨rfl, rfl, rfl, rfl, rfl, fun _ => rfl⟩ ih

/-- `OrderOnlyChange` is transitive. -/
theorem OOC_trans (p : Nat) : ∀ {l0 l1 l2 : List NodeRow},
    OrderOnlyChange p l0 l1 → OrderOnlyChange p l1 l2 → OrderOnlyChange p l0 l2 := by
  intro l0 l1 l2 h01 h12
  induction h01 generalizing l2 with
  | nil => cases h12; exact List.Forall₂.nil
  | cons hab htail ih =>
    cases h12 with
    | cons hbc h12' =>
      refine List.Forall₂.cons ?_ (ih h12')
      obtain ⟨i1, p1, t1, a1, s1, o1⟩ := hab
      obtain ⟨i2, p2, t2, a2, s2, o2⟩ := hbc
      exact ⟨i2.trans i1, p2.trans p1, t2.trans t1, a2.trans a1, s2.trans s1,
        fun hne => (o2 (by rw [p1]; exact hne)).trans (o1 hne)⟩

/-- One reorder update touches at most the order of a node of the reordered
project. -/
theorem setOrder_step_rel (p : Nat) (nid : Nat) (v : Int) (x : NodeRow) :
    (if (x.id == nid && x.project_id == p) = true then ({ x with order := v } : NodeRow) else x).id = x.id
    ∧ (if (x.id == nid && x.project_id == p) = true then ({ x with order := v } : NodeRow) else x).project_id = x.project_id
    ∧ (if (x.id == nid && x.project_id == p) = true then ({ x with order := v } : NodeRow) else x).text = x.text
    ∧ (if (x.id == nid && x.project_id == p) = true then ({ x with order := v } : NodeRow) else x).actor = x.actor
    ∧ (if (x.id == nid && x.project_id == p) = true then ({ x with order := v } : NodeRow) else x).step = x.step
    ∧ (x.project_id ≠ p →
        (if (x.id == nid && x.project_id == p) = true then ({ x with order := v } : NodeRow) else x).order = x.order) := by
  by_cases hc : (x.id == nid && x.project_id == p) = true
  · rw [if_pos hc]
    refine ⟨rfl, rfl, rfl, rfl, rfl, fun hne => ?_⟩
    have hc2 := hc
    simp only [Bool.and_eq_true, beq_iff_eq] at hc2
    exact absurd hc2.2 hne
  · rw [if_neg hc]
    exact ⟨rfl, rfl, rfl, rfl, rfl, fun _ => rfl⟩

/-- One reorder update step is an order-only change. -/
theorem setOrder_step_OOC (p : Nat) (l : List NodeRow) (nid : Nat) (v : Int) :
    OrderOnlyChange p l
      (l.map (fun n => if n.id == nid && n.project_id == p then { n with order := v } else n)) := by
  induction l with
  | nil => exact List.Forall₂.nil
  | cons x xs ih => exact List.Forall₂.cons (setOrder_step_rel p nid v x) ih

/-- A successful reorder only changes orders of the project's nodes. -/
theorem applyReorderItems_OOC (p : Nat) :
    ∀ (us : List (Nat × Int)) (l R : List NodeRow),
      applyReorderItems p l us = Except.ok R → OrderOnlyChange p l R := by
  intro us
  induction us with
  | nil =>
    intro l R h
    simp only [applyReorderItems] at h
    cases h
    exact OOC_refl p l
  | cons u rest ih =>
    intro l R h
    simp only [applyReorderItems] at h
    cases hfind : l.find? (fun n => n.id == u.1 && n.project_id == p) with
    | none => rw [hfind] at h; exact absurd h (by simp)
    | some m =>
      rw [hfind] at h
      exact OOC_trans p (setOrder_step_OOC p l u.1 u.2) (ih _ R h)

/-- Pointwise restoration: applying the stored id→order map to the
reordered table recovers the original rows. -/
theorem restore_pointwise (p : Nat) (us : List (Nat × Int)) :
    ∀ (l0 l1 : List NodeRow), OrderOnlyChange p l0 l1 →
      (∀ a ∈ l0, a.project_id = p → us.find? (fun q => q.1 == a.id) = some (a.id, a.order)) →
      (∀ a ∈ l0, a.project_id ≠ p → us.find? (fun q => q.1 == a.id) = none) →
      l1.map (restoreFn us) = l0 := by
  intro l0 l1 hooc
  induction hooc with
  | nil => intro _ _; rfl
  | @cons a b as bs hab htail ih =>
    intro hin hout
    obtain ⟨hid, hproj, htext, hactor, hstep, hord⟩ := hab
    have h2 : bs.map (restoreFn us) = as :=
      ih (fun x hx hxp => hin x (List.mem_cons_of_mem a hx) hxp)
        (fun x hx hxp => hout x (List.mem_cons_of_mem a hx) hxp)
    have h1 : restoreFn us b = a := by
      by_cases hp : a.project_id = p
      · have hfind := hin a (List.mem_cons_self a as) hp
        show (match us.find? (fun q => q.1 == b.id) with
          | some u => { b with order := u.2 } | none => b) = a
        rw [hid, hfind]
        exact nodeRow_eq _ _ rfl hproj htext rfl hactor hstep
      · have hfind := hout a (List.mem_cons_self a as) hp
        show (match us.find? (fun q => q.1 == b.id) with
          | some u => { b with order := u.2 } | none => b) = a
        rw [hid, hfind]
        exact nodeRow_eq _ _ hid hproj htext (hord hp) hactor hstep
    rw [List.map_cons, h1, h2]

/-- The keys of the `old_orders` snapshot are unique (node ids are). -/
theorem snapshot_keys_nodup (l : List NodeRow) (hnd : (l.map NodeRow.id).Nodup) (p : Nat) :
    (((l.filter (fun n => n.project_id == p)).map (fun n => (n.id, n.order))).map Prod.fst).Nodup := by
  rw [List.map_map]
  exact ((List.filter_sublist l).map NodeRow.id).nodup hnd

/-- A key present in a unique-keyed map is found with its value. -/
theorem find?_key_of_mem (us : List (Nat × Int)) (hk : (us.map Prod.fst).Nodup)
    (k : Nat) (v : Int) (hmem : (k, v) ∈ us) :
    us.find? (fun q => q.1 == k) = some (k, v) := by
  induction us with
  | nil => simp at hmem
  | cons u tl ih =>
    simp only [List.map_cons, List.nodup_cons] at hk
    obtain ⟨hu, htl⟩ := hk
    rcases List.mem_cons.mp hmem with rfl | hmem2
    · simp [List.find?_cons]
    · have hkne : u.1 ≠ k := by
        intro he
        apply hu
        rw [he]
        exact List.mem_map_of_mem Prod.fst hmem2
      simp only [List.find?_cons]
      rw [show (u.1 == k) = false from by simpa using hkne]
      exact ih htl hmem2

/-- A node outside the project has no entry in the project's order
snapshot. -/
theorem find?_none_of_not_proj (l : List NodeRow) (hnd : (l.map NodeRow.id).Nodup) (p : Nat)
    (a : NodeRow) (ha : a ∈ l) (hap : a.project_id ≠ p) :
    ((l.filter (fun n => n.project_id == p)).map (fun n => (n.id, n.order))).find?
      (fun q => q.1 == a.id) = none := by
  apply List.find?_eq_none.mpr
  intro x hx
  simp only [beq_iff_eq]
  intro hxx
  rcases List.mem_map.mp hx with ⟨b, hbf, rfl⟩
  rcases List.mem_filter.mp hbf with ⟨hbl, hbp⟩
  have hba : b = a := mem_id_unique l hnd b hbl a ha hxx
  apply hap
  rw [← hba]
  exact beq_iff_eq.mp hbp

/-- The `reorder_nodes` undo branch restores the exact pre-reorder node
table from the snapshot. -/
theorem restore_exact (p : Nat) (l0 l1 : List NodeRow)
    (hnd : (l0.map NodeRow.id).Nodup) (hooc : OrderOnlyChange p l0 l1) :
    applyOldOrders l1
      ((l0.filter (fun n => n.project_id == p)).map (fun n => (n.id, n.order))) = l0 := by
  have hk := snapshot_keys_nodup l0 hnd p
  rw [applyOldOrders_eq_map _ hk l1]
  apply restore_pointwise p _ l0 l1 hooc
  · intro a ha hap
    apply find?_key_of_mem _ hk
    exact List.mem_map_of_mem _ (List.mem_filter.mpr ⟨ha, by simpa using hap⟩)
  · intro a ha hap
    exact find?_none_of_not_proj l0 hnd p a ha hap



/-- Undo with an empty slot fails with 400 "No operation to undo". -/
theorem undo_no_slot (st2 : AppState) (p : Nat)
    (hproj : p ∈ st2.db.projects)
    (hslot : lookupUndo st2.undo_history p = none) :
    (undo_flow_operation st2 p).1 = Except.error (400, "No operation to undo") := by
  simp [undo_flow_operation, hproj, hslot]

/-- C3: after any one successful mutating flow operation
(create/update/delete/reorder) on a well-formed state, one undo call
succeeds and restores the pre-operation node set exactly — literally for
create-, update- and reorder-undo; with the deleted node recreated with the
same text, order and project under a fresh id for delete-undo — and a second
undo call with no intervening operation fails with 400
"No operation to undo". -/
theorem undo_single_shot_exact (st : AppState) (op : MutOp) (p : Nat) (st1 : AppState)
    (hWF : WFState st)
    (hproj : st.db.projects.contains p = true)
    (hop : mutOpProject st op = some p)
    (hApply : applyMutOp st op = Except.ok st1) :
    isOkResult (undo_flow_operation st1 p).1 = true ∧
    RestoresExactly st ((undo_flow_operation st1 p).2) op ∧
    (undo_flow_operation ((undo_flow_operation st1 p).2) p).1 =
      Except.error (400, "No operation to undo") := by
  obtain ⟨hnd, hlt⟩ := hWF
  have hmem : p ∈ st.db.projects := by simpa using hproj
  cases op with
  | updateOp nid t =>
    cases hfind : findNode st.db.nodes nid with
    | none => simp [applyMutOp, update_flow_node, hfind] at hApply
    | some node =>
      have hnodep : node.project_id = p := by
        simpa [mutOpProject, hfind] using hop
      simp only [applyMutOp, update_flow_node, hfind] at hApply
      rw [Except.ok.injEq] at hApply
      subst hApply
      rw [hnodep]
      have hlook := lookupUndo_recordUndo_self st.undo_history p (UndoEntry.updateNode nid node.text)
      have hrt := update_roundtrip st.db.nodes hnd nid node (sanitize_http_to_https t) hfind
      refine ⟨?_, ?_, ?_⟩
      · simp [undo_flow_operation, hmem, hlook, isOkResult]
      · simp only [RestoresExactly]
        simp [undo_flow_operation, hmem, hlook]
        simp only [beq_iff_eq] at hrt
        rw [List.map_map] at hrt
        exact hrt
      · apply undo_no_slot
        · simp [undo_flow_operation, hmem, hlook]
        · simp [undo_flow_operation, hmem, hlook]
          exact lookupUndo_clearUndo_self _ p
  | createOp p2 t o =>
    have hp2 : p = p2 := Eq.symm (by simpa [mutOpProject] using hop)
    subst hp2
    simp only [applyMutOp, create_flow_node, hproj, Bool.not_true, Bool.false_eq_true,
      if_false] at hApply
    rw [Except.ok.injEq] at hApply
    subst hApply
    have hlook := lookupUndo_recordUndo_self st.undo_history p
      (UndoEntry.createNode st.db.nextNodeId)
    have hfr : ∀ n ∈ st.db.nodes, n.id ≠ st.db.nextNodeId := fun n hn => Nat.ne_of_lt (hlt n hn)
    have hrestore := filter_id_append_new st.db.nodes
      ⟨st.db.nextNodeId, p, sanitize_http_to_https t, o, none, none⟩ hfr
    refine ⟨?_, ?_, ?_⟩
    · simp [undo_flow_operation, hmem, hlook, isOkResult]
    · simp only [RestoresExactly]
      simp [undo_flow_operation, hmem, hlook]
      simpa using hrestore
    · apply undo_no_slot
      · simp [undo_flow_operation, hmem, hlook]
      · simp [undo_flow_operation, hmem, hlook]
        exact lookupUndo_clearUndo_self _ p
  | deleteOp nid =>
    cases hfind : findNode st.db.nodes nid with
    | none => simp [applyMutOp, delete_flow_node, hfind] at hApply
    | some node =>
      have hnodep : node.project_id = p := by
        simpa [mutOpProject, hfind] using hop
      obtain ⟨hnmem, hnid0⟩ := findNode_spec st.db.nodes nid node hfind
      simp only [applyMutOp, delete_flow_node, hfind] at hApply
      rw [Except.ok.injEq] at hApply
      subst hApply
      rw [hnodep]
      have hlook := lookupUndo_recordUndo_self st.undo_history p
        (UndoEntry.deleteNode nid node.text node.order p)
      refine ⟨?_, ?_, ?_⟩
      · simp [undo_flow_operation, hmem, hlook, isOkResult]
      · simp only [RestoresExactly]
        intro n hn hnid
        have hneq : n = node := mem_id_unique st.db.nodes hnd n hn node hnmem
          (hnid.trans hnid0.symm)
        refine ⟨⟨st.db.nextNodeId, p, node.text, node.order, none, none⟩, ?_, ?_, ?_, ?_, ?_⟩
        · simp [undo_flow_operation, hmem, hlook]
        · rw [hneq]
        · rw [hneq]
        · rw [hneq, hnodep]
        · intro hcon
          rcases List.mem_map.mp hcon with ⟨m, hm, hmid⟩
          exact absurd hmid (Nat.ne_of_lt (hlt m hm))
      · apply undo_no_slot
        · simp [undo_flow_operation, hmem, hlook]
        · simp [undo_flow_operation, hmem, hlook]
          exact lookupUndo_clearUndo_self _ p
  | reorderOp p2 us =>
    have hp2 : p = p2 := Eq.symm (by simpa [mutOpProject] using hop)
    subst hp2
    cases happly : applyReorderItems p st.db.nodes us with
    | error e =>
      simp [applyMutOp, reorder_flow_nodes, hproj, hmem, happly] at hApply
    | ok R =>
      simp only [applyMutOp, reorder_flow_nodes, hproj, Bool.not_true, Bool.false_eq_true,
        if_false, happly] at hApply
      rw [Except.ok.injEq] at hApply
      subst hApply
      have hooc := applyReorderItems_OOC p us st.db.nodes R happly
      have hrest := restore_exact p st.db.nodes R hnd hooc
      have hlook := lookupUndo_recordUndo_self st.undo_history p
        (UndoEntry.reorderNodes ((st.db.nodes.filter (fun n => n.project_id == p)).map
          (fun n => (n.id, n.order))))
      refine ⟨?_, ?_, ?_⟩
      · simp [undo_flow_operation, hmem, hlook, isOkResult]
      · simp only [RestoresExactly]
        simp [undo_flow_operation, hmem, hlook]
        simpa using hrest
      · apply undo_no_slot
        · simp [undo_flow_operation, hmem, hlook]
        · simp [undo_flow_operation, hmem, hlook]
          exact lookupUndo_clearUndo_self _ p



/-- Witness for `undo_single_shot_exact`: update node 1's text, undo,
undo again. -/
theorem undo_single_shot_exact_witness :
    (WFState c3st ∧ c3st.db.projects.contains 1 = true
      ∧ mutOpProject c3st c3op = some 1
      ∧ applyMutOp c3st c3op = Except.ok c3st1) ∧
    (isOkResult (undo_flow_operation c3st1 1).1 = true ∧
     RestoresExactly c3st ((undo_flow_operation c3st1 1).2) c3op ∧
     (undo_flow_operation ((undo_flow_operation c3st1 1).2) 1).1 =
       Except.error (400, "No operation to undo")) :=
  ⟨⟨by decide, rfl, rfl, rfl⟩,
    undo_single_shot_exact c3st c3op 1 c3st1 (by decide) rfl rfl rfl⟩

end KisdhiGreen
